import Mathlib

/-!
Verification development for the CVRP route-optimization backend
(`backend/controllers/optimization.js`).  The JavaScript source is shallowly
embedded: JS numbers are idealized as exact rationals (`ℚ`), except where the
distinction between finite values, `NaN` and `±Infinity` is the point at
issue, in which case the type `JSVal` models an IEEE double without rounding.
Transcendental functions (`Math.sin`, `Math.cos`, `Math.atan2`, `Math.sqrt`)
and the constant `Math.PI` are not computable on rationals; they are supplied
by an abstract `TrigOracle`, and every theorem quantifies over the oracle (or
instantiates a concrete one for witnesses).
-/

namespace RouteOpt

/-- Semantics of JS `Math.round` on a finite value: round half toward positive
infinity, i.e. `Math.round(x) = floor(x + 0.5)`. -/
def jsRound (q : ℚ) : ℤ := ⌊q + 1/2⌋

/-- Semantics of the JS coalescing pattern `q || 0` on a number known to be
finite: `0` is falsy, so the expression is the identity on rationals. -/
def jsOr0 (q : ℚ) : ℚ := if q = 0 then 0 else q

/-- Semantics of `n || 1` on a nonnegative integer (`0` is falsy). -/
def jsOrOne (n : ℕ) : ℕ := if n = 0 then 1 else n

/-- Abstract interface for the transcendental functions used by the haversine
distance.  All theorems hold for every oracle; witnesses pick a concrete
computable instance. -/
structure TrigOracle where
  sin : ℚ → ℚ
  cos : ℚ → ℚ
  atan2 : ℚ → ℚ → ℚ
  sqrt : ℚ → ℚ
  pi : ℚ

/-- A concrete computable oracle used by witness theorems. -/
def oWitness : TrigOracle :=
  { sin := fun _ => 0
    cos := fun _ => 0
    atan2 := fun _ _ => 0
    sqrt := fun _ => 0
    pi := 3 }

/-- A JS number: `NaN`, one of the two infinities, or a finite value
(idealized as an exact rational). -/
inductive JSVal where
  | nan : JSVal
  | posInf : JSVal
  | negInf : JSVal
  | num : ℚ → JSVal
deriving Repr, DecidableEq

namespace JSVal

/-- JS unary negation. -/
def neg : JSVal → JSVal
  | nan => nan
  | posInf => negInf
  | negInf => posInf
  | num q => num (-q)

/-- JS addition (IEEE semantics without rounding/overflow). -/
def add : JSVal → JSVal → JSVal
  | nan, _ => nan
  | _, nan => nan
  | posInf, negInf => nan
  | negInf, posInf => nan
  | posInf, _ => posInf
  | _, posInf => posInf
  | negInf, _ => negInf
  | _, negInf => negInf
  | num a, num b => num (a + b)

/-- JS subtraction, `a - b = a + (-b)`. -/
def sub (a b : JSVal) : JSVal := add a (neg b)

/-- JS multiplication: `NaN` propagates; `±Infinity * 0 = NaN`; otherwise the
sign rules of IEEE 754 (signed zero is not modelled). -/
def mul : JSVal → JSVal → JSVal
  | nan, _ => nan
  | _, nan => nan
  | posInf, posInf => posInf
  | posInf, negInf => negInf
  | negInf, posInf => negInf
  | negInf, negInf => posInf
  | posInf, num b => if b = 0 then nan else if 0 < b then posInf else negInf
  | negInf, num b => if b = 0 then nan else if 0 < b then negInf else posInf
  | num a, posInf => if a = 0 then nan else if 0 < a then posInf else negInf
  | num a, negInf => if a = 0 then nan else if 0 < a then negInf else posInf
  | num a, num b => num (a * b)

/-- JS division: `NaN` propagates; `x/0` is `NaN` for `x = 0` and a signed
infinity otherwise; `finite / ±Infinity = 0`; `±Infinity / ±Infinity = NaN`. -/
def div : JSVal → JSVal → JSVal
  | nan, _ => nan
  | _, nan => nan
  | posInf, posInf => nan
  | posInf, negInf => nan
  | negInf, posInf => nan
  | negInf, negInf => nan
  | posInf, num b => if 0 ≤ b then posInf else negInf
  | negInf, num b => if 0 ≤ b then negInf else posInf
  | num _, posInf => num 0
  | num _, negInf => num 0
  | num a, num b =>
      if b = 0 then (if a = 0 then nan else if 0 < a then posInf else negInf)
      else num (a / b)

/-- JS `Math.sin`: `NaN` on non-finite input, oracle on finite input. -/
def jsSin (o : TrigOracle) : JSVal → JSVal
  | num q => num (o.sin q)
  | _ => nan

/-- JS `Math.cos`: `NaN` on non-finite input, oracle on finite input. -/
def jsCos (o : TrigOracle) : JSVal → JSVal
  | num q => num (o.cos q)
  | _ => nan

/-- JS `Math.sqrt`: `NaN` on `NaN` or negative input, `Infinity` on
`Infinity`, oracle on nonnegative finite input. -/
def jsSqrt (o : TrigOracle) : JSVal → JSVal
  | nan => nan
  | posInf => posInf
  | negInf => nan
  | num q => if q < 0 then nan else num (o.sqrt q)

/-- JS `Math.atan2 y x`: `NaN` when either argument is `NaN`; the ECMA-262
special values (multiples of pi) when an argument is infinite; oracle when
both are finite. -/
def jsAtan2 (o : TrigOracle) : JSVal → JSVal → JSVal
  | nan, _ => nan
  | _, nan => nan
  | posInf, posInf => num (o.pi / 4)
  | posInf, negInf => num (3 * o.pi / 4)
  | negInf, posInf => num (-(o.pi / 4))
  | negInf, negInf => num (-(3 * o.pi / 4))
  | posInf, num _ => num (o.pi / 2)
  | negInf, num _ => num (-(o.pi / 2))
  | num y, posInf => if 0 ≤ y then num 0 else num (-0)
  | num y, negInf => if 0 ≤ y then num o.pi else num (-o.pi)
  | num y, num x => num (o.atan2 y x)

/-- JS `x ** 2`. -/
def pow2 : JSVal → JSVal
  | nan => nan
  | posInf => posInf
  | negInf => posInf
  | num q => num (q ^ 2)

/-- JS `Math.round`: `NaN` and infinities pass through, finite values round
half toward positive infinity. -/
def round : JSVal → JSVal
  | nan => nan
  | posInf => posInf
  | negInf => negInf
  | num q => num (jsRound q : ℚ)

/-- The global `isNaN` applied to a number. -/
def isNaN' : JSVal → Bool
  | nan => true
  | _ => false

end JSVal

/-- Embedding of `calculateDistance(lat1, lon1, lat2, lon2)` (source lines
2415-2436): the guard rejects only `NaN` coordinates (via `isNaN`; the
`typeof` checks are vacuous on numbers) and returns `0`; then the haversine
formula with `R = 6371` km is evaluated in JS arithmetic and the result is
rounded to three decimals by `Math.round(R*c*1000)/1000`. -/
def calculateDistance (o : TrigOracle) (lat1 lon1 lat2 lon2 : JSVal) : JSVal :=
  if lat1.isNaN' || lon1.isNaN' || lat2.isNaN' || lon2.isNaN' then
    JSVal.num 0
  else
    let toRad := fun d => JSVal.div (JSVal.mul d (JSVal.num o.pi)) (JSVal.num 180)
    let dLat := toRad (JSVal.sub lat2 lat1)
    let dLon := toRad (JSVal.sub lon2 lon1)
    let a := JSVal.add (JSVal.pow2 (JSVal.jsSin o (JSVal.div dLat (JSVal.num 2))))
      (JSVal.mul
        (JSVal.mul (JSVal.jsCos o (toRad lat1)) (JSVal.jsCos o (toRad lat2)))
        (JSVal.pow2 (JSVal.jsSin o (JSVal.div dLon (JSVal.num 2)))))
    let c := JSVal.mul (JSVal.num 2)
      (JSVal.jsAtan2 o (JSVal.jsSqrt o a) (JSVal.jsSqrt o (JSVal.sub (JSVal.num 1) a)))
    JSVal.div (JSVal.round (JSVal.mul (JSVal.mul (JSVal.num 6371) c) (JSVal.num 1000)))
      (JSVal.num 1000)

/-- Modelled from the spec: the haversine great-circle distance with Earth
radius 6371 km, rounded to 0.001 km, on finite coordinates, with the
transcendental functions supplied by the oracle. -/
def haversineSpec (o : TrigOracle) (lat1 lon1 lat2 lon2 : ℚ) : ℚ :=
  let toRad := fun d => d * o.pi / 180
  let dLat := toRad (lat2 - lat1)
  let dLon := toRad (lon2 - lon1)
  let a := o.sin (dLat / 2) ^ 2 +
    o.cos (toRad lat1) * o.cos (toRad lat2) * o.sin (dLon / 2) ^ 2
  let c := 2 * o.atan2 (o.sqrt a) (o.sqrt (1 - a))
  (jsRound (6371 * c * 1000) : ℚ) / 1000

/-- The intermediate haversine quantity `a` of `calculateDistance` on finite
coordinates, used to state the nonnegativity side conditions that JS
`Math.sqrt` imposes. -/
def haversineA (o : TrigOracle) (lat1 lon1 lat2 lon2 : ℚ) : ℚ :=
  let toRad := fun d => d * o.pi / 180
  o.sin (toRad (lat2 - lat1) / 2) ^ 2 +
    o.cos (toRad lat1) * o.cos (toRad lat2) * o.sin (toRad (lon2 - lon1) / 2) ^ 2

/-- Finite-coordinate specialization of `calculateDistance`, used as the
distance-matrix generator by the algorithm embeddings (whose location
coordinates are idealized as finite rationals). -/
def calculateDistanceQ (o : TrigOracle) (lat1 lon1 lat2 lon2 : ℚ) : ℚ :=
  haversineSpec o lat1 lon1 lat2 lon2

/-- A stop record inside a route, with the location data denormalized, as
stored by every algorithm of the controller. -/
structure Stop where
  locationId : String
  locationName : String
  latitude : ℚ
  longitude : ℚ
  demand : ℚ
  order : ℕ
deriving Repr, DecidableEq

/-- A route as produced by the algorithms: stop sequence, optional assigned
vehicle id, cached metrics, total demand, and the `capacityExceeded` flag
(absent in JS is modelled as `false`, the only falsy reading the code ever
gives it). -/
structure Route where
  vehicle : Option String
  vehicleName : String
  stops : List Stop
  distance : ℚ
  duration : ℤ
  totalCapacity : ℚ
  capacityExceeded : Bool := false
deriving Repr, DecidableEq

/-- A vehicle type document: id, name, capacity, count. -/
structure VehicleT where
  _id : String
  name : String
  capacity : ℚ
  count : ℕ
deriving Repr, DecidableEq

/-- A location document: id, name, coordinates, demand, depot flag. -/
structure LocationT where
  _id : String
  name : String
  latitude : ℚ
  longitude : ℚ
  demand : ℚ
  isDepot : Bool
deriving Repr, DecidableEq

/-- Distance lookup `distances[fromId]?.[toId] ?? calculateDistance(...)` used
by `recomputeRouteMetrics` (source lines 517-528): the fallback fires only
when the pair is absent from the matrix. -/
def pairDistGetD (o : TrigOracle) (distances : String → String → Option ℚ)
    (a b : Stop) : ℚ :=
  (distances a.locationId b.locationId).getD
    (calculateDistanceQ o a.latitude a.longitude b.latitude b.longitude)

/-- Distance lookup `distances[fromId]?.[toId] || calculateDistance(...)` used
by `recomputeAllRouteMetrics` (source lines 2450-2464): the fallback fires
when the pair is absent or the stored entry is `0` (falsy). -/
def pairDistOr (o : TrigOracle) (distances : String → String → Option ℚ)
    (a b : Stop) : ℚ :=
  match distances a.locationId b.locationId with
  | some q =>
      if q = 0 then calculateDistanceQ o a.latitude a.longitude b.latitude b.longitude
      else q
  | none => calculateDistanceQ o a.latitude a.longitude b.latitude b.longitude

/-- Sum of a pairwise distance function over consecutive stops, the loop
`for k in 0..len-2, dist += pair stops[k] stops[k+1]` (rational addition is
associative, so left-to-right accumulation equals this recursion). -/
def stopsDistance (pair : Stop → Stop → ℚ) : List Stop → ℚ
  | a :: b :: rest => pair a b + stopsDistance pair (b :: rest)
  | _ => 0

/-- Embedding of `recomputeRouteMetrics` (source lines 517-528): walk the
stops pairwise, sum matrix distances with the `??` fallback, update
`distance` and `duration = Math.round(dist / speedKmh * 60)`. -/
def recomputeRouteMetrics (o : TrigOracle) (distances : String → String → Option ℚ)
    (speedKmh : ℚ) (rt : Route) : Route :=
  let dist := stopsDistance (pairDistGetD o distances) rt.stops
  { rt with distance := dist, duration := jsRound (dist / speedKmh * 60) }

/-- Embedding of `recomputeAllRouteMetrics` (source lines 2450-2464): per
route, sum matrix distances with the `||` fallback, update `distance` and
`duration`. -/
def recomputeAllRouteMetrics (o : TrigOracle) (distances : String → String → Option ℚ)
    (speedKmh : ℚ) (solution : List Route) : List Route :=
  solution.map (fun route =>
    let dist := stopsDistance (pairDistOr o distances) route.stops
    { route with distance := dist, duration := jsRound (dist / speedKmh * 60) })

/-- Embedding of `generateSolutionKey` (source lines 2466-2470): join each
route's stop ids with a dash, sort the strings (JS default lexicographic
sort, stable; `insertionSort` is a stable sort), join with a bar. -/
def generateSolutionKey (solution : List Route) : String :=
  String.intercalate "|"
    (List.insertionSort (· ≤ ·)
      (solution.map (fun route =>
        String.intercalate "-" (route.stops.map (fun stop => stop.locationId)))))

/-- The JS destructuring swap `[l[i], l[j]] = [l[j], l[i]]`. -/
def listSwap {α : Type} (l : List α) (i j : ℕ) : List α :=
  match l.get? i, l.get? j with
  | some a, some b => (l.set i b).set j a
  | _, _ => l

/-- Embedding of the Simulated Annealing `generateNeighbor` (source lines
1624-1643).  The two random draws `Math.floor(Math.random()*(len-3))+1` are
modelled by the parameters `i` and `j` (both land in `[1, len-3]`), and the
random route choice by `routeIndex` (always `< solution.length`).  The swap
does NOT renumber the `order` fields, and `recomputeAllRouteMetrics` updates
only `distance` and `duration`. -/
def generateNeighbor (o : TrigOracle) (distances : String → String → Option ℚ)
    (speedKmh : ℚ) (solution : List Route) (routeIndex i j : ℕ) : List Route :=
  let neighbor :=
    if 2 ≤ solution.length then
      match solution.get? routeIndex with
      | some route =>
          if 4 ≤ route.stops.length then
            if i ≠ j then
              solution.set routeIndex { route with stops := listSwap route.stops i j }
            else solution
          else solution
      | none => solution
    else solution
  recomputeAllRouteMetrics o distances speedKmh neighbor

/-- Embedding of the Genetic Algorithm route-based `crossover` (source lines
1849-1871): for each index up to `max(|p1|,|p2|) - 1`, copy the route at that
index from a random parent when both have one (`Math.random() < 0.5` is
modelled by the `choices` stream; `true` picks `parent1`), else from the
parent that has it; then recompute metrics on the child. -/
def crossover (o : TrigOracle) (distances : String → String → Option ℚ)
    (speedKmh : ℚ) (choices : List Bool) (parent1 parent2 : List Route) :
    List Route :=
  let child := (List.range (max parent1.length parent2.length)).filterMap
    (fun i =>
      match parent1.get? i, parent2.get? i with
      | some r1, some r2 => some (if choices.getD i true then r1 else r2)
      | some r1, none => some r1
      | none, some r2 => some r2
      | none, none => none)
  recomputeAllRouteMetrics o distances speedKmh child

/-- Number of stops referring to a given location id across all routes of a
solution. -/
def nonDepotOccurrences (solution : List Route) (locId : String) : ℕ :=
  (solution.map (fun r => r.stops.countP (fun s => s.locationId == locId))).sum

/-- Decides whether in every route of a solution each stop's `order` field
equals its index in the stops array. -/
def ordersMatchIdx (solution : List Route) : Bool :=
  solution.all (fun r => r.stops.enum.all (fun p => p.2.order == p.1))

/-- Modelled from the spec: the sum of distance-matrix entries over
consecutive stop pairs of a route. -/
def matrixPairSum (distances : String → String → Option ℚ) (stops : List Stop) : ℚ :=
  ((stops.zip stops.tail).map
    (fun p => (distances p.1.locationId p.2.locationId).getD 0)).sum

/-- A vehicle slot as expanded by `assignVehiclesToRoutes` (source lines
2348-2360): one record per physical vehicle with a `used` flag and a running
load.  The extra `idx` field is the positional identity that stands in for
the JS object reference (the code mutates the found slot in place). -/
structure Slot where
  _id : String
  name : String
  capacity : ℚ
  used : Bool
  currentLoad : ℚ
  idx : ℕ
deriving Repr, DecidableEq

/-- Slot expansion: `count || 1` slots per vehicle type carrying its id, name
and `capacity || 0`, initially unused with zero load. -/
def expandSlots (vehicles : List VehicleT) : List Slot :=
  ((vehicles.flatMap (fun v => List.replicate (jsOrOne v.count) v)).enum).map
    (fun p => ⟨p.2._id, p.2.name, jsOr0 p.2.capacity, false, 0, p.1⟩)

/-- Best-fit slot lookup (source lines 2366-2369): among unused slots with
enough capacity, the one minimizing remaining slack after insertion (JS
`.sort(...)[0]`; `insertionSort` is stable like `Array.prototype.sort`). -/
def bestFitSlot (slots : List Slot) (required : ℚ) : Option Slot :=
  (List.insertionSort
    (fun a b : Slot =>
      a.capacity - (a.currentLoad + required) ≤ b.capacity - (b.currentLoad + required))
    (slots.filter (fun vs => !vs.used && decide (required ≤ vs.capacity)))).head?

/-- The assignment loop of `assignVehiclesToRoutes` (source lines 2365-2377):
for each route in order, find the best-fit slot; on success set the route's
vehicle and mark the slot used, adding the route demand to its load. -/
def assignFold (slots : List Slot) : List Route → List Slot × List Route
  | [] => (slots, [])
  | route :: rest =>
    match bestFitSlot slots (jsOr0 route.totalCapacity) with
    | some best =>
        let slots' := slots.map (fun s =>
          if s.idx = best.idx then
            { s with used := true, currentLoad := s.currentLoad + jsOr0 route.totalCapacity }
          else s)
        let out := assignFold slots' rest
        (out.1, { route with vehicle := some best._id, vehicleName := best.name } :: out.2)
    | none =>
        let out := assignFold slots rest
        (out.1, route :: out.2)

/-- Embedding of `assignVehiclesToRoutes` (source lines 2347-2382): expand
slots, sort routes by demand descending and slots by capacity descending
(stable sorts), then run the best-fit assignment loop; `validateRoutes` only
logs and is omitted.  Returns the (sorted, possibly reassigned) routes. -/
def assignVehiclesToRoutes (routes : List Route) (vehicles : List VehicleT) :
    List Route :=
  let vehicleSlots := expandSlots vehicles
  let sortedRoutes := List.insertionSort
    (fun a b : Route => jsOr0 b.totalCapacity ≤ jsOr0 a.totalCapacity) routes
  let sortedSlots := List.insertionSort (fun a b : Slot => b.capacity ≤ a.capacity) vehicleSlots
  (assignFold sortedSlots sortedRoutes).2

/-- Capacity of the vehicle type with the given id, as `validateRoutes` looks
it up (`vehicles.find(v => v._id === route.vehicle)`). -/
def capacityOf (vehicles : List VehicleT) (id : String) : Option ℚ :=
  (vehicles.find? (fun v => v._id == id)).map (fun v => jsOr0 v.capacity)

/-- Decides the C3 invariant for one route: an assigned vehicle implies the
route demand fits its capacity or the route is flagged `capacityExceeded`. -/
def routeCapacityOkB (vehicles : List VehicleT) (r : Route) : Bool :=
  match r.vehicle with
  | none => true
  | some id =>
      match capacityOf vehicles id with
      | none => true
      | some cap => decide (r.totalCapacity ≤ cap) || r.capacityExceeded

/-- Depot stop fixture for concrete witnesses. -/
def stDep (ord : ℕ) : Stop := ⟨"d", "Depot", 0, 0, 0, ord⟩

/-- Singleton route serving location `x`. -/
def rX : Route :=
  { vehicle := none, vehicleName := "Unassigned",
    stops := [stDep 0, ⟨"x", "X", 0, 1, 5, 1⟩, stDep 2],
    distance := 0, duration := 0, totalCapacity := 5 }

/-- Singleton route serving location `y`. -/
def rY : Route :=
  { vehicle := none, vehicleName := "Unassigned",
    stops := [stDep 0, ⟨"y", "Y", 0, 2, 4, 1⟩, stDep 2],
    distance := 0, duration := 0, totalCapacity := 4 }

/-- Three-customer route fixture for the Simulated Annealing swap. -/
def rABC : Route :=
  { vehicle := none, vehicleName := "Unassigned",
    stops := [stDep 0, ⟨"a", "A", 0, 1, 2, 1⟩, ⟨"b", "B", 0, 2, 2, 2⟩,
      ⟨"c", "C", 0, 3, 2, 3⟩, stDep 4],
    distance := 0, duration := 0, totalCapacity := 6 }

/-- A total distance matrix that has every pair at 1 km. -/
def dOne : String → String → Option ℚ := fun _ _ => some 1

/-- Two-type fleet fixture for concrete witnesses. -/
def fleetA : List VehicleT := [⟨"v1", "Truck", 10, 1⟩, ⟨"v2", "Van", 4, 1⟩]

/-- Embedding of the candidate construction inside `threeOptOnce` (source
lines 854-890).  The code slices `A = seq.slice(0,i)`, `B = seq.slice(i,j)`,
`C = seq.slice(j,k)`, `D = seq.slice(k)` and builds six candidate arrays; JS
`Array.prototype.reverse` mutates in place, so after the second candidate the
array bound to `B` stays reversed, after the third candidate `C` stays
reversed, and so on.  The intermediate lets track the mutated arrays
exactly. -/
def threeOptCandidates {α : Type} (seq : List α) (i j k : ℕ) : List (List α) :=
  let A := seq.take i
  let B := (seq.drop i).take (j - i)
  let C := (seq.drop j).take (k - j)
  let D := seq.drop k
  let c1 := A ++ B ++ C ++ D
  let B1 := B.reverse
  let c2 := A ++ B1 ++ C ++ D
  let C1 := C.reverse
  let c3 := A ++ B1 ++ C1 ++ D
  let c4 := A ++ C1 ++ B1 ++ D
  let C2 := C1.reverse
  let c5 := A ++ C2 ++ B1 ++ D
  let B2 := B1.reverse
  let C3 := C2.reverse
  let c6 := A ++ B2 ++ C3 ++ D
  [c1, c2, c3, c4, c5, c6]

/-- Modelled from the spec: the seven reconnections the claim says the 3-opt
pass evaluates for a triple — identity, reverse B, reverse C, swap B and C,
swap with B reversed, swap with C reversed, and the double-reverse. -/
def threeOptClaimedCandidates {α : Type} (seq : List α) (i j k : ℕ) : List (List α) :=
  let A := seq.take i
  let B := (seq.drop i).take (j - i)
  let C := (seq.drop j).take (k - j)
  let D := seq.drop k
  [A ++ B ++ C ++ D,
   A ++ B.reverse ++ C ++ D,
   A ++ B ++ C.reverse ++ D,
   A ++ C ++ B ++ D,
   A ++ C ++ B.reverse ++ D,
   A ++ C.reverse ++ B ++ D,
   A ++ B.reverse ++ C.reverse ++ D]

/-- One fold step of the candidate selection in `threeOptOnce`: replace the
running best when the candidate improves on the running best distance by more
than the 1e-9 tolerance. -/
def tolMinStep {α : Type} (dist : List α → ℚ) (acc : Option (List α) × ℚ)
    (cand : List α) : Option (List α) × ℚ :=
  if dist cand + 1/1000000000 < acc.2 then (some cand, dist cand) else acc

/-- Selection of `threeOptOnce` at one triple `(i, j, k)`: start from the
current sequence's distance, fold over the six candidates, and report the
finally chosen candidate; `none` models `best === seq`, i.e. no candidate was
ever accepted. -/
def threeOptPickAt {α : Type} (dist : List α → ℚ) (seq : List α) (i j k : ℕ) :
    Option (List α) :=
  ((threeOptCandidates seq i j k).foldl (tolMinStep dist) (none, dist seq)).1

/-- Distance oracle fixture on plain index sequences for the 3-opt witness. -/
def dNat : List ℕ → ℚ := fun l => if l = [0, 3, 4, 2, 1, 5, 6] then 0 else 10

/-- A location document as fetched by `createOptimization`; coordinates are
JS numbers (possibly non-finite). -/
structure OptLocation where
  _id : String
  name : String
  latitude : JSVal
  longitude : JSVal
  demand : ℚ
  isDepot : Bool
deriving Repr, DecidableEq

/-- A solve request as `createOptimization` sees it: request body fields plus
the fetched vehicle and location documents. -/
structure OptRequest where
  name : String
  vehicleIds : List String
  locationIds : List String
  vehicles : List VehicleT
  locations : List OptLocation
deriving Repr, DecidableEq

/-- Semantics of JS `String.prototype.trim`: drop whitespace from both ends
(structural implementation over the character list). -/
def jsTrim (s : String) : String :=
  ⟨((s.data.dropWhile Char.isWhitespace).reverse.dropWhile Char.isWhitespace).reverse⟩

/-- Embedding of the validation prefix of `createOptimization` (source lines
55-107): the guards run in order and the first failing one rejects the
request with a 400 error before any algorithm is invoked; `none` means the
request proceeds to the solve phase.  There is no coordinate check. -/
def createOptimizationValidate (req : OptRequest) : Option String :=
  if jsTrim req.name = "" then some "Valid optimization name is required"
  else if req.vehicleIds.isEmpty then some "At least one vehicle must be selected"
  else if req.locationIds.isEmpty then some "At least one location must be selected"
  else if 100 < req.locationIds.length then some "Maximum 100 locations allowed for optimization"
  else if 20 < req.vehicleIds.length then some "Maximum 20 vehicles allowed for optimization"
  else if req.vehicles.isEmpty then some "No valid vehicles found"
  else if req.locations.isEmpty then some "No valid locations found"
  else if !req.locations.any (fun loc => loc.isDepot) then
    some "At least one location must be marked as a depot"
  else none

/-- JS `Number.isFinite` on a number value. -/
def jsIsFiniteVal : JSVal → Bool
  | JSVal.num _ => true
  | _ => false

/-- Request fixture with an infinite latitude that passes every implemented
guard. -/
def reqInf : OptRequest :=
  { name := "demo"
    vehicleIds := ["v1"]
    locationIds := ["d", "x"]
    vehicles := [⟨"v1", "Truck", 10, 1⟩]
    locations := [⟨"d", "Depot", JSVal.num 0, JSVal.num 0, 0, true⟩,
                  ⟨"x", "X", JSVal.posInf, JSVal.num 1, 5, false⟩] }

/-- Well-formed request fixture. -/
def reqOk : OptRequest :=
  { name := "demo"
    vehicleIds := ["v1"]
    locationIds := ["d", "x"]
    vehicles := [⟨"v1", "Truck", 10, 1⟩]
    locations := [⟨"d", "Depot", JSVal.num 0, JSVal.num 0, 0, true⟩,
                  ⟨"x", "X", JSVal.num 1, JSVal.num 1, 5, false⟩] }

/-- A per-algorithm result as the comparison driver sees it: error flag,
coverage percentage and total distance (the fields the winner rule reads). -/
structure AlgoResult where
  algorithmKey : String
  error : Bool
  coveragePercentage : ℚ
  totalDistance : ℚ
deriving Repr, DecidableEq

/-- Tie-break key `(r.totalDistance || Infinity)`: the JS `||` coerces a
falsy `0` distance to `Infinity`. -/
def distOrInf (r : AlgoResult) : WithTop ℚ :=
  if r.totalDistance = 0 then ⊤ else (r.totalDistance : WithTop ℚ)

/-- The reduce step (source lines 237-239):
`(current.totalDistance || Infinity) < (best.totalDistance || Infinity) ?
current : best`. -/
def minDistStep (best current : AlgoResult) : AlgoResult :=
  if distOrInf current < distOrInf best then current else best

/-- The fold behind `Math.max(...validResults.map(r =>
r.coveragePercentage || 0))`. -/
def maxCovFold (x : ℚ) (l : List AlgoResult) : ℚ :=
  l.foldl (fun m r => max m (jsOr0 r.coveragePercentage)) x

/-- The branch on `maxCoverageResults` (source lines 232-240): a single
max-coverage result is taken directly, otherwise the reduce picks the
minimum-key result keeping the earlier one on key ties. -/
def codePick : List AlgoResult → Option AlgoResult
  | [] => none
  | [single] => some single
  | m :: ms => some (ms.foldl minDistStep m)

/-- Winner computation among the error-free results (source lines 225-240):
maximum of the coerced coverages, filter to the results attaining it, then
`codePick`. -/
def codeSelectCore (v : AlgoResult) (vs : List AlgoResult) : Option AlgoResult :=
  let maxCoverage := maxCovFold (jsOr0 v.coveragePercentage) vs
  codePick ((v :: vs).filter (fun r => jsOr0 r.coveragePercentage == maxCoverage))

/-- Embedding of the winner selection of `createOptimization` in compare mode
(source lines 221-264): filter error-free results; if none remain, the first
(failed) result is selected; otherwise the best among the error-free ones. -/
def selectBestResult (l : List AlgoResult) : Option AlgoResult :=
  match l.filter (fun r => !r.error) with
  | [] => l.head?
  | v :: vs => codeSelectCore v vs

/-- Modelled from the spec: the claimed winner rule — among error-free
results select maximum coverage percentage, tie-break by minimum total
distance, keep the first in insertion order on full ties; fall back to the
first (failed) result when no error-free result exists. -/
def claimWinner (l : List AlgoResult) : Option AlgoResult :=
  match l.filter (fun r => !r.error) with
  | [] => l.head?
  | v :: vs =>
      some (vs.foldl (fun best current =>
        if best.coveragePercentage < current.coveragePercentage ∨
            (current.coveragePercentage = best.coveragePercentage ∧
              current.totalDistance < best.totalDistance) then current
        else best) v)

/-- The lexicographic step of the amended winner rule: higher coverage wins;
on equal coverage the smaller `(totalDistance || Infinity)` key wins; full
ties keep the earlier result. -/
def lexStepAmended (best current : AlgoResult) : AlgoResult :=
  if best.coveragePercentage < current.coveragePercentage ∨
      (current.coveragePercentage = best.coveragePercentage ∧
        distOrInf current < distOrInf best) then current
  else best

/-- The amended winner rule as a single lexicographic pass. -/
def claimWinnerAmended (l : List AlgoResult) : Option AlgoResult :=
  match l.filter (fun r => !r.error) with
  | [] => l.head?
  | v :: vs => some (vs.foldl lexStepAmended v)

/-- Error-free result with full coverage and zero total distance. -/
def resA : AlgoResult := ⟨"clarke-wright", false, 100, 0⟩

/-- Error-free result with full coverage and 5 km total distance. -/
def resB : AlgoResult := ⟨"genetic", false, 100, 5⟩

/-- Builds the nested distance object `distances[id1][id2]` of the
Clarke-Wright constructors (source lines 431-446): an entry is present
exactly when both ids belong to the locations list, with the haversine value
on the (finite, idealized rational) coordinates. -/
def buildDistances (o : TrigOracle) (locations : List LocationT) :
    String → String → Option ℚ := fun id1 id2 =>
  match locations.find? (fun l => l._id == id1),
      locations.find? (fun l => l._id == id2) with
  | some l1, some l2 =>
      some (calculateDistanceQ o l1.latitude l1.longitude l2.latitude l2.longitude)
  | _, _ => none

/-- Depot stop constructor `makeDepotStop` (source lines 452-459). -/
def makeDepotStop (depot : LocationT) (ord : ℕ) : Stop :=
  ⟨depot._id, depot.name, depot.latitude, depot.longitude, jsOr0 depot.demand, ord⟩

/-- Stop record for a customer location. -/
def makeLocationStop (loc : LocationT) (ord : ℕ) : Stop :=
  ⟨loc._id, loc.name, loc.latitude, loc.longitude, jsOr0 loc.demand, ord⟩

/-- Initial depot-customer-depot routes of both Clarke-Wright variants
(source lines 461-484). -/
def cwInitialRoutes (depot : LocationT) (nonDepot : List LocationT)
    (speedKmh : ℚ) (dm : String → String → Option ℚ) : List Route :=
  nonDepot.map (fun loc =>
    let distance := (dm depot._id loc._id).getD 0 * 2
    { vehicle := none, vehicleName := "Unassigned",
      stops := [makeDepotStop depot 0, makeLocationStop loc 1, makeDepotStop depot 2],
      distance := distance, duration := jsRound (distance / speedKmh * 60),
      totalCapacity := jsOr0 loc.demand })

/-- All ordered pairs `i < j` visited by the double savings loop. -/
def allPairs {α : Type} : List α → List (α × α)
  | [] => []
  | x :: xs => xs.map (fun y => (x, y)) ++ allPairs xs

/-- A savings-list entry. -/
structure Saving where
  i : LocationT
  j : LocationT
  saving : ℚ
deriving Repr, DecidableEq

/-- Basic Clarke-Wright saving `d(depot,i) + d(depot,j) - d(i,j)` (source
lines 487-498). -/
def basicSaving (dm : String → String → Option ℚ) (depotId : String)
    (li lj : LocationT) : ℚ :=
  (dm depotId li._id).getD 0 + (dm depotId lj._id).getD 0 - (dm li._id lj._id).getD 0

/-- Fleet maximum capacity `vehicles.length > 0 ? Math.max(...vehicles.map(v
=> v.capacity || 0)) : 0` (source line 501). -/
def maxCapacityOf (vehicles : List VehicleT) : ℚ :=
  match vehicles with
  | [] => 0
  | v :: vs => vs.foldl (fun m w => max m (jsOr0 w.capacity)) (jsOr0 v.capacity)

/-- First `(routeIndex, stopIndex)` whose stop refers to the given location
id (`findRouteIndexByLocation`, source lines 503-512). -/
def findRouteIndexByLocation : List Route → String → Option (ℕ × ℕ)
  | [], _ => none
  | rt :: rs, idStr =>
    match rt.stops.findIdx? (fun s => s.locationId == idStr) with
    | some k => some (0, k)
    | none => (findRouteIndexByLocation rs idStr).map (fun p => (p.1 + 1, p.2))

/-- One iteration of the savings merge loop (source lines 531-587; the
enhanced variant repeats it verbatim at lines 1217-1261): locate the routes
of the two endpoints; merge only when one location is at its route's END
(index `len-2`) and the other at the other route's START (index 1); skip the
saving when the combined demand exceeds the fleet's maximum capacity
(`combinedDemand > maxCapacity` → `continue`); otherwise renumber orders,
recompute metrics on the merged route and splice it in place of the two. -/
def mergeStep (recompute : Route → Route) (maxCapacity : ℚ)
    (routes : List Route) (s : Saving) : List Route :=
  match findRouteIndexByLocation routes s.i._id,
      findRouteIndexByLocation routes s.j._id with
  | some posI, some posJ =>
    if posI.1 = posJ.1 then routes
    else
      match routes.get? posI.1, routes.get? posJ.1 with
      | some r1, some r2 =>
        let iAtEndOfR1 := posI.2 == r1.stops.length - 2
        let iAtStartOfR1 := posI.2 == 1
        let jAtEndOfR2 := posJ.2 == r2.stops.length - 2
        let jAtStartOfR2 := posJ.2 == 1
        let newStops : Option (List Stop) :=
          if iAtEndOfR1 && jAtStartOfR2 then
            some (r1.stops.dropLast ++ r2.stops.drop 1)
          else if jAtEndOfR2 && iAtStartOfR1 then
            some (r2.stops.dropLast ++ r1.stops.drop 1)
          else none
        match newStops with
        | none => routes
        | some ns =>
          let combinedDemand := jsOr0 r1.totalCapacity + jsOr0 r2.totalCapacity
          if maxCapacity < combinedDemand then routes
          else
            let merged := recompute
              { vehicle := none, vehicleName := "Unassigned",
                stops := ns.enum.map (fun p => { p.2 with order := p.1 }),
                distance := 0, duration := 0, totalCapacity := combinedDemand }
            (routes.eraseIdx (max posI.1 posJ.1)).set (min posI.1 posJ.1) merged
      | _, _ => routes
  | _, _ => routes

/-- The savings phase of `clarkeWrightAlgorithm` (source lines 424-587):
distance matrix, initial singleton routes, savings sorted descending (stable
sort like `Array.prototype.sort`), then the merge loop. -/
def clarkeWrightSavingsPhase (o : TrigOracle) (vehicles : List VehicleT)
    (locations : List LocationT) (depot : LocationT) : List Route :=
  let speedKmh : ℚ := 40
  let dm := buildDistances o locations
  let nonDepot := locations.filter (fun l => !(l._id == depot._id))
  let routes := cwInitialRoutes depot nonDepot speedKmh dm
  let savings : List Saving := (allPairs nonDepot).map
    (fun p => ⟨p.1, p.2, basicSaving dm depot._id p.1 p.2⟩)
  let sorted := List.insertionSort (fun a b : Saving => b.saving ≤ a.saving) savings
  sorted.foldl (mergeStep (recomputeRouteMetrics o dm speedKmh) (maxCapacityOf vehicles))
    routes

/-- The enhanced saving score (source lines 1100-1135) with its angular,
capacity, urgency, distance-efficiency and (constant 1) time factors.  For an
empty fleet `maxVehicleCapacity` is `Infinity`, making both capacity factors
1; a division by a zero `maxCapacityOf` in a degenerate all-zero-capacity
fleet is idealized to Lean's `x / 0 = 0` convention — this can only affect
the sort order of the savings, never the capacity gate under verification. -/
def enhancedSaving (o : TrigOracle) (dm : String → String → Option ℚ)
    (depot : LocationT) (vehicles : List VehicleT) (li lj : LocationT) : ℚ :=
  let basic := basicSaving dm depot._id li lj
  let angleI := o.atan2 (li.latitude - depot.latitude) (li.longitude - depot.longitude)
  let angleJ := o.atan2 (lj.latitude - depot.latitude) (lj.longitude - depot.longitude)
  let angularDiff := |angleI - angleJ|
  let angularBonus := min angularDiff (2 * o.pi - angularDiff) / o.pi
  let combinedDemand := jsOr0 li.demand + jsOr0 lj.demand
  let capacityCompatibility : ℚ :=
    match vehicles with
    | [] => 1
    | _ => if combinedDemand ≤ maxCapacityOf vehicles then 1
           else max (1/10) (maxCapacityOf vehicles / combinedDemand)
  let urgencyFactor : ℚ :=
    match vehicles with
    | [] => 1
    | _ => min (6/5) (1 + combinedDemand / maxCapacityOf vehicles * (1/5))
  let distanceEfficiency := max (4/5) (1 - (dm li._id lj._id).getD 0 / 50)
  let timeCompatibility : ℚ := 1
  basic * (1 + angularBonus * (3/20)) * capacityCompatibility * urgencyFactor *
    distanceEfficiency * timeCompatibility

/-- The savings phase of `enhancedClarkeWrightAlgorithm` (source lines
1069-1261): identical to the basic phase except that the savings are scored
by `enhancedSaving` before the descending sort. -/
def enhancedClarkeWrightSavingsPhase (o : TrigOracle) (vehicles : List VehicleT)
    (locations : List LocationT) (depot : LocationT) : List Route :=
  let speedKmh : ℚ := 40
  let dm := buildDistances o locations
  let nonDepot := locations.filter (fun l => !(l._id == depot._id))
  let routes := cwInitialRoutes depot nonDepot speedKmh dm
  let savings : List Saving := (allPairs nonDepot).map
    (fun p => ⟨p.1, p.2, enhancedSaving o dm depot vehicles p.1 p.2⟩)
  let sorted := List.insertionSort (fun a b : Saving => b.saving ≤ a.saving) savings
  sorted.foldl (mergeStep (recomputeRouteMetrics o dm speedKmh) (maxCapacityOf vehicles))
    routes

/-- Depot fixture for the savings-phase witness. -/
def locD : LocationT := ⟨"d", "Depot", 0, 0, 0, true⟩

/-- Customer fixture with demand 3. -/
def locA : LocationT := ⟨"a", "A", 0, 1, 3, false⟩

/-- Customer fixture with demand 3. -/
def locB : LocationT := ⟨"b", "B", 0, 2, 3, false⟩

/-- One-type fleet fixture with capacity 10. -/
def fleetB : List VehicleT := [⟨"v1", "Truck", 10, 2⟩]

/-- The merged route the savings phase produces on the witness instance. -/
def demoMerged : Route :=
  { vehicle := none, vehicleName := "Unassigned",
    stops := [⟨"d", "Depot", 0, 0, 0, 0⟩, ⟨"a", "A", 0, 1, 3, 1⟩,
      ⟨"b", "B", 0, 2, 3, 2⟩, ⟨"d", "Depot", 0, 0, 0, 3⟩],
    distance := 0, duration := 0, totalCapacity := 6 }

/-- Initial singleton route of customer `a` on the witness instance. -/
def r0A : Route :=
  { vehicle := none, vehicleName := "Unassigned",
    stops := [⟨"d", "Depot", 0, 0, 0, 0⟩, ⟨"a", "A", 0, 1, 3, 1⟩, ⟨"d", "Depot", 0, 0, 0, 2⟩],
    distance := 0, duration := 0, totalCapacity := 3 }

/-- Initial singleton route of customer `b` on the witness instance. -/
def r0B : Route :=
  { vehicle := none, vehicleName := "Unassigned",
    stops := [⟨"d", "Depot", 0, 0, 0, 0⟩, ⟨"b", "B", 0, 2, 3, 1⟩, ⟨"d", "Depot", 0, 0, 0, 2⟩],
    distance := 0, duration := 0, totalCapacity := 3 }

end RouteOpt

namespace RouteOpt

theorem jsOr0_eq (q : ℚ) : jsOr0 q = q := by
  unfold jsOr0; split <;> simp_all

theorem insertionSort_eq_of_perm {l l' : List String} (h : l.Perm l') :
    List.insertionSort (· ≤ ·) l = List.insertionSort (· ≤ ·) l' :=
  List.eq_of_perm_of_sorted
    ((List.perm_insertionSort _ _).trans (h.trans (List.perm_insertionSort _ _).symm))
    (List.sorted_insertionSort _ _) (List.sorted_insertionSort _ _)

/-- Claim C10: `generateSolutionKey` is invariant under permutation of the
route list, because the per-route stop-identifier strings are sorted before
joining; Tabu Search therefore keys two solutions with the same routes in a
different order identically. -/
theorem c10_solution_key_perm_invariant (s1 s2 : List Route) (h : s1.Perm s2) :
    generateSolutionKey s1 = generateSolutionKey s2 := by
  unfold generateSolutionKey
  exact congrArg (String.intercalate "|") (insertionSort_eq_of_perm (h.map _))

/-- Witness for C10 at a concrete two-route solution and its transposition. -/
theorem c10_solution_key_perm_invariant_witness :
    generateSolutionKey [rX, rY] = generateSolutionKey [rY, rX] :=
  c10_solution_key_perm_invariant [rX, rY] [rY, rX] (by decide)

/-- Claim C9 (code bug): the Simulated Annealing neighbor move swaps two stop
records without renumbering their `order` fields, so in the neighbor the
stop at index 1 carries `order = 2`; the input solution satisfied
order-equals-index. -/
theorem c9_sa_swap_breaks_order_eq_index :
    ordersMatchIdx [rABC, rY] = true ∧
    ordersMatchIdx (generateNeighbor oWitness dOne 40 [rABC, rY] 0 1 2) = false := by
  decide

theorem pairDistGetD_of_isSome (o : TrigOracle) (distances : String → String → Option ℚ)
    (a b : Stop) (h : (distances a.locationId b.locationId).isSome) :
    pairDistGetD o distances a b = (distances a.locationId b.locationId).getD 0 := by
  unfold pairDistGetD
  obtain ⟨q, hq⟩ := Option.isSome_iff_exists.mp h
  simp [hq]

theorem pairDistOr_of_ne (o : TrigOracle) (distances : String → String → Option ℚ)
    (a b : Stop) (h : (distances a.locationId b.locationId).getD 0 ≠ 0) :
    pairDistOr o distances a b = (distances a.locationId b.locationId).getD 0 := by
  unfold pairDistOr
  cases hq : distances a.locationId b.locationId with
  | none => rw [hq] at h; simp at h
  | some q =>
      rw [hq] at h
      simp only [Option.getD_some] at h ⊢
      exact if_neg h

theorem stopsDistance_eq_matrixPairSum (pair : Stop → Stop → ℚ)
    (distances : String → String → Option ℚ) :
    ∀ stops : List Stop,
      (∀ q ∈ stops.zip stops.tail, pair q.1 q.2 = (distances q.1.locationId q.2.locationId).getD 0) →
      stopsDistance pair stops = matrixPairSum distances stops := by
  intro stops
  induction stops with
  | nil => intro _; simp [stopsDistance, matrixPairSum]
  | cons a rest ih =>
    intro h
    cases rest with
    | nil => simp [stopsDistance, matrixPairSum]
    | cons b rest' =>
      have hab : pair a b = (distances a.locationId b.locationId).getD 0 :=
        h (a, b) (by simp)
      have hrest := ih (fun q hq => h q (by simpa using List.mem_cons_of_mem (a, b) hq))
      show pair a b + stopsDistance pair (b :: rest') = matrixPairSum distances (a :: b :: rest')
      rw [hab, hrest]
      simp [matrixPairSum]

/-- Claim C5: after metric recomputation (both the per-route ver. with the
`??` fallback and the all-routes ver. with the `||` fallback), the route
distance equals the sum of matrix entries over consecutive stop pairs to
within 1e-6 (in fact exactly, when every pair is in the matrix — and, for the
`||` variant, nonzero there), and the duration is
`Math.round(distance / 40 * 60)`. -/
theorem c5_metric_recomputation (o : TrigOracle) (distances : String → String → Option ℚ)
    (rt : Route) (sol : List Route)
    (h1 : ∀ q ∈ rt.stops.zip rt.stops.tail, (distances q.1.locationId q.2.locationId).isSome)
    (h2 : ∀ r ∈ sol, ∀ q ∈ r.stops.zip r.stops.tail,
      (distances q.1.locationId q.2.locationId).getD 0 ≠ 0) :
    (|(recomputeRouteMetrics o distances 40 rt).distance - matrixPairSum distances rt.stops| ≤
        1/1000000 ∧
      (recomputeRouteMetrics o distances 40 rt).duration =
        jsRound ((recomputeRouteMetrics o distances 40 rt).distance / 40 * 60)) ∧
    (∀ r ∈ recomputeAllRouteMetrics o distances 40 sol,
      |r.distance - matrixPairSum distances r.stops| ≤ 1/1000000 ∧
      r.duration = jsRound (r.distance / 40 * 60)) := by
  constructor
  · have hd : stopsDistance (pairDistGetD o distances) rt.stops = matrixPairSum distances rt.stops :=
      stopsDistance_eq_matrixPairSum _ _ rt.stops
        (fun q hq => pairDistGetD_of_isSome o distances q.1 q.2 (h1 q hq))
    constructor
    · simp [recomputeRouteMetrics, hd]
    · simp [recomputeRouteMetrics]
  · intro r hr
    obtain ⟨src, hsrc, rfl⟩ := List.mem_map.mp hr
    have hd : stopsDistance (pairDistOr o distances) src.stops = matrixPairSum distances src.stops :=
      stopsDistance_eq_matrixPairSum _ _ src.stops
        (fun q hq => pairDistOr_of_ne o distances q.1 q.2 (h2 src hsrc q hq))
    constructor
    · simp [hd]
    · simp

/-- Witness for C5 at a singleton route and the all-ones matrix. -/
theorem c5_metric_recomputation_witness :
    |(recomputeRouteMetrics oWitness dOne 40 rX).distance - matrixPairSum dOne rX.stops| ≤
      1/1000000 ∧
    ∀ r ∈ recomputeAllRouteMetrics oWitness dOne 40 [rY],
      r.duration = jsRound (r.distance / 40 * 60) := by
  have h := c5_metric_recomputation oWitness dOne rX [rY] (by decide) (by decide)
  exact ⟨h.1.1, fun r hr => (h.2 r hr).2⟩

theorem expandSlots_capacityOf (vehicles : List VehicleT)
    (hN : (vehicles.map (fun v => v._id)).Nodup) :
    ∀ s ∈ expandSlots vehicles, capacityOf vehicles s._id = some s.capacity := by
  intro s hs
  unfold expandSlots at hs
  obtain ⟨p, hp, rfl⟩ := List.mem_map.mp hs
  have hp2 : p.2 ∈ vehicles.flatMap (fun v => List.replicate (jsOrOne v.count) v) := by
    have := List.mem_map_of_mem Prod.snd hp
    rwa [List.enum_map_snd] at this
  obtain ⟨v, hv, hrep⟩ := List.mem_flatMap.mp hp2
  have hpv : p.2 = v := List.eq_of_mem_replicate hrep
  show capacityOf vehicles p.2._id = some (jsOr0 p.2.capacity)
  rw [hpv]
  unfold capacityOf
  have hsome : (vehicles.find? (fun w => w._id == v._id)).isSome :=
    List.find?_isSome.mpr ⟨v, hv, by simp⟩
  obtain ⟨w, hw⟩ := Option.isSome_iff_exists.mp hsome
  have hwid : w._id = v._id := by simpa using List.find?_some hw
  have hwv : w = v :=
    List.inj_on_of_nodup_map hN (List.mem_of_find?_eq_some hw) hv hwid
  rw [hw, hwv]
  rfl

theorem bestFitSlot_mem (slots : List Slot) (required : ℚ) (s : Slot)
    (h : bestFitSlot slots required = some s) :
    s ∈ slots ∧ required ≤ s.capacity := by
  unfold bestFitSlot at h
  have hmem : s ∈ List.insertionSort
      (fun a b : Slot =>
        a.capacity - (a.currentLoad + required) ≤ b.capacity - (b.currentLoad + required))
      (slots.filter (fun vs => !vs.used && decide (required ≤ vs.capacity))) :=
    List.mem_of_mem_head? (Option.mem_def.mpr h)
  have hmem2 := (List.perm_insertionSort _ _).mem_iff.mp hmem
  refine ⟨List.mem_of_mem_filter hmem2, ?_⟩
  have hpred := List.of_mem_filter hmem2
  simp only [Bool.and_eq_true, decide_eq_true_eq] at hpred
  exact hpred.2

theorem assignFold_preserves (vehicles : List VehicleT) :
    ∀ (routes : List Route) (slots : List Slot),
      (∀ s ∈ slots, capacityOf vehicles s._id = some s.capacity) →
      (∀ r ∈ routes, routeCapacityOkB vehicles r = true) →
      ∀ r ∈ (assignFold slots routes).2, routeCapacityOkB vehicles r = true := by
  intro routes
  induction routes with
  | nil => intro slots _ _ r hr; simp [assignFold] at hr
  | cons route rest ih =>
    intro slots hslots hroutes r hr
    have hrest : ∀ r' ∈ rest, routeCapacityOkB vehicles r' = true :=
      fun r' h' => hroutes r' (List.mem_cons_of_mem route h')
    cases hbf : bestFitSlot slots (jsOr0 route.totalCapacity) with
    | some best =>
      simp only [assignFold, hbf] at hr
      obtain ⟨hbmem, hbcap⟩ := bestFitSlot_mem slots _ best hbf
      rcases List.mem_cons.mp hr with hr | hr
      · subst hr
        have hco := hslots best hbmem
        rw [jsOr0_eq] at hbcap
        simp [routeCapacityOkB, hco, hbcap]
      · refine ih _ ?_ hrest r hr
        intro s hs
        obtain ⟨src, hsrc, rfl⟩ := List.mem_map.mp hs
        by_cases hidx : src.idx = best.idx
        · simpa [hidx] using hslots src hsrc
        · simpa [hidx] using hslots src hsrc
    | none =>
      simp only [assignFold, hbf] at hr
      rcases List.mem_cons.mp hr with hr | hr
      · subst hr; exact hroutes r (List.mem_cons_self _ _)
      · exact ih slots hslots hrest r hr

/-- Claim C3: after `assignVehiclesToRoutes`, every route with an assigned
vehicle has `totalCapacity` at most that vehicle's capacity or carries
`capacityExceeded = true` — an overloaded, unflagged assigned route never
occurs, provided vehicle-type ids are distinct and the input routes already
satisfy the invariant (the loop only adds assignments whose slot capacity
covers the route demand; routes it cannot place keep their fields). -/
theorem c3_assign_vehicles_capacity (vehicles : List VehicleT) (routes : List Route)
    (hN : (vehicles.map (fun v => v._id)).Nodup)
    (hIn : ∀ r ∈ routes, routeCapacityOkB vehicles r = true) :
    ∀ r ∈ assignVehiclesToRoutes routes vehicles, routeCapacityOkB vehicles r = true := by
  intro r hr
  unfold assignVehiclesToRoutes at hr
  refine assignFold_preserves vehicles _ _ ?_ ?_ r hr
  · intro s hs
    exact expandSlots_capacityOf vehicles hN s ((List.perm_insertionSort _ _).mem_iff.mp hs)
  · intro r' hr'
    exact hIn r' ((List.perm_insertionSort _ _).mem_iff.mp hr')

/-- Witness for C3 on a concrete two-route, two-slot instance. -/
theorem c3_assign_vehicles_capacity_witness :
    (assignVehiclesToRoutes [rX, rY] fleetA).all (routeCapacityOkB fleetA) = true := by
  refine List.all_eq_true.mpr ?_
  intro r hr
  exact c3_assign_vehicles_capacity fleetA [rX, rY] (by decide) (by decide) r hr

/-- Claim C2 (code bug): the route-based crossover can duplicate a non-depot
location.  Both parents serve `x` and `y` exactly once (in opposite route
order); with coin flips picking parent 1 at index 0 and parent 2 at index 1
the child serves `x` twice and the claimed at-most-once invariant fails. -/
theorem c2_crossover_duplicates_location :
    nonDepotOccurrences [rX, rY] "x" = 1 ∧
    nonDepotOccurrences [rY, rX] "x" = 1 ∧
    nonDepotOccurrences
      (crossover oWitness dOne 40 [true, false] [rX, rY] [rY, rX]) "x" = 2 := by
  decide

theorem jsval_sub_num (a b : ℚ) : JSVal.sub (JSVal.num a) (JSVal.num b) = JSVal.num (a - b) := by
  show JSVal.add (JSVal.num a) (JSVal.neg (JSVal.num b)) = JSVal.num (a - b)
  simp only [JSVal.neg, JSVal.add, sub_eq_add_neg]

theorem jsval_mul_num (a b : ℚ) : JSVal.mul (JSVal.num a) (JSVal.num b) = JSVal.num (a * b) := rfl

theorem jsval_div_num180 (a : ℚ) :
    JSVal.div (JSVal.num a) (JSVal.num 180) = JSVal.num (a / 180) := by
  simp only [JSVal.div]
  norm_num

theorem jsval_div_num2 (a : ℚ) : JSVal.div (JSVal.num a) (JSVal.num 2) = JSVal.num (a / 2) := by
  simp only [JSVal.div]
  norm_num

theorem jsval_div_num1000 (a : ℚ) :
    JSVal.div (JSVal.num a) (JSVal.num 1000) = JSVal.num (a / 1000) := by
  simp only [JSVal.div]
  norm_num

theorem jsval_pow2_num (a : ℚ) : JSVal.pow2 (JSVal.num a) = JSVal.num (a ^ 2) := rfl

theorem jsval_sin_num (o : TrigOracle) (a : ℚ) :
    JSVal.jsSin o (JSVal.num a) = JSVal.num (o.sin a) := rfl

theorem jsval_cos_num (o : TrigOracle) (a : ℚ) :
    JSVal.jsCos o (JSVal.num a) = JSVal.num (o.cos a) := rfl

theorem jsval_add_num (a b : ℚ) : JSVal.add (JSVal.num a) (JSVal.num b) = JSVal.num (a + b) := rfl

theorem jsval_atan2_num (o : TrigOracle) (y x : ℚ) :
    JSVal.jsAtan2 o (JSVal.num y) (JSVal.num x) = JSVal.num (o.atan2 y x) := rfl

theorem jsval_round_num (q : ℚ) : JSVal.round (JSVal.num q) = JSVal.num (jsRound q : ℚ) := rfl

theorem jsval_sqrt_num_of_nonneg (o : TrigOracle) (a : ℚ) (h : 0 ≤ a) :
    JSVal.jsSqrt o (JSVal.num a) = JSVal.num (o.sqrt a) := by
  simp only [JSVal.jsSqrt, not_lt.mpr h, if_false]

/-- Counterexample for C4: an infinite coordinate passes the `isNaN`-only
guard of `calculateDistance`, the haversine arithmetic then produces `NaN`
(`Math.sin(Infinity)` is `NaN`), and the function returns `NaN` — not the `0`
the claim promises for every non-finite input. -/
theorem c4_infinite_coordinate_not_zero :
    calculateDistance oWitness JSVal.posInf (JSVal.num 0) (JSVal.num 0) (JSVal.num 0) =
      JSVal.nan ∧ JSVal.nan ≠ JSVal.num 0 := by
  decide

/-- Claim C4 as amended: on finite coordinates `calculateDistance` computes
the haversine great-circle distance with Earth radius 6371 km rounded to
0.001 km (stated against the spec-modelled `haversineSpec`, for every trig
oracle, under the nonnegativity side conditions that make JS `Math.sqrt`
total); inputs with a `NaN` coordinate yield `0`.  Infinite coordinates are
NOT guarded (see the counterexample): the guard tests only `isNaN`. -/
theorem c4_haversine_amended :
    (∀ (o : TrigOracle) (lat1 lon1 lat2 lon2 : ℚ),
      0 ≤ haversineA o lat1 lon1 lat2 lon2 → haversineA o lat1 lon1 lat2 lon2 ≤ 1 →
      calculateDistance o (JSVal.num lat1) (JSVal.num lon1) (JSVal.num lat2) (JSVal.num lon2) =
        JSVal.num (haversineSpec o lat1 lon1 lat2 lon2)) ∧
    (∀ (o : TrigOracle) (v1 v2 v3 v4 : JSVal),
      (v1 = JSVal.nan ∨ v2 = JSVal.nan ∨ v3 = JSVal.nan ∨ v4 = JSVal.nan) →
      calculateDistance o v1 v2 v3 v4 = JSVal.num 0) := by
  constructor
  · intro o lat1 lon1 lat2 lon2 h0 h1
    unfold haversineA at h0 h1
    simp only at h0 h1
    unfold calculateDistance haversineSpec
    simp only [JSVal.isNaN', Bool.or_self, if_false, Bool.false_or]
    simp only [jsval_sub_num, jsval_mul_num, jsval_div_num180, jsval_div_num2, jsval_pow2_num,
      jsval_sin_num, jsval_cos_num, jsval_add_num]
    rw [jsval_sqrt_num_of_nonneg o _ h0, jsval_sqrt_num_of_nonneg o _ (sub_nonneg.mpr h1)]
    simp only [jsval_atan2_num, jsval_mul_num, jsval_round_num, jsval_div_num1000]
    rw [if_neg Bool.false_ne_true]
  · intro o v1 v2 v3 v4 h
    unfold calculateDistance
    rcases h with h | h | h | h <;> subst h <;> simp [JSVal.isNaN']

/-- Witness for C4 (amended) at coordinates `(0,0)` and `(0,1)` with the
concrete oracle, plus the NaN branch at a `NaN` latitude. -/
theorem c4_haversine_amended_witness :
    0 ≤ haversineA oWitness 0 0 0 1 ∧ haversineA oWitness 0 0 0 1 ≤ 1 ∧
    calculateDistance oWitness (JSVal.num 0) (JSVal.num 0) (JSVal.num 0) (JSVal.num 1) =
      JSVal.num (haversineSpec oWitness 0 0 0 1) ∧
    calculateDistance oWitness JSVal.nan (JSVal.num 0) (JSVal.num 0) (JSVal.num 0) =
      JSVal.num 0 := by
  have ha : haversineA oWitness 0 0 0 1 = 0 := by
    simp [haversineA, oWitness]
  have h0 : 0 ≤ haversineA oWitness 0 0 0 1 := le_of_eq ha.symm
  have h1 : haversineA oWitness 0 0 0 1 ≤ 1 := by rw [ha]; decide
  exact ⟨h0, h1, c4_haversine_amended.1 oWitness 0 0 0 1 h0 h1,
    c4_haversine_amended.2 oWitness JSVal.nan (JSVal.num 0) (JSVal.num 0) (JSVal.num 0)
      (Or.inl rfl)⟩

theorem tolMinStep_snd_le {α : Type} (dist : List α → ℚ) (acc : Option (List α) × ℚ)
    (c : List α) : (tolMinStep dist acc c).2 ≤ acc.2 := by
  unfold tolMinStep
  split
  · next h => simp only; linarith
  · exact le_refl _

theorem tolMinFold_snd_le {α : Type} (dist : List α → ℚ) :
    ∀ (l : List (List α)) (acc : Option (List α) × ℚ),
      ((l.foldl (tolMinStep dist) acc)).2 ≤ acc.2 := by
  intro l
  induction l with
  | nil => intro acc; simp
  | cons c cs ih =>
      intro acc
      calc ((c :: cs).foldl (tolMinStep dist) acc).2
          = (cs.foldl (tolMinStep dist) (tolMinStep dist acc c)).2 := by rw [List.foldl_cons]
        _ ≤ (tolMinStep dist acc c).2 := ih _
        _ ≤ acc.2 := tolMinStep_snd_le dist acc c

theorem tolMinFold_le_elem {α : Type} (dist : List α → ℚ) :
    ∀ (l : List (List α)) (acc : Option (List α) × ℚ),
      ∀ x ∈ l, ((l.foldl (tolMinStep dist) acc)).2 ≤ dist x + 1/1000000000 := by
  intro l
  induction l with
  | nil => intro acc x hx; simp at hx
  | cons c cs ih =>
      intro acc x hx
      rw [List.foldl_cons]
      rcases List.mem_cons.mp hx with rfl | hx
      · refine le_trans (tolMinFold_snd_le dist cs _) ?_
        unfold tolMinStep
        split
        · next h => simp only; linarith
        · next h => linarith [not_lt.mp h]
      · exact ih _ x hx

theorem tolMinFold_some_inv {α : Type} (dist : List α → ℚ) :
    ∀ (l : List (List α)) (acc : Option (List α) × ℚ),
      (∀ c0, acc.1 = some c0 → acc.2 = dist c0) →
      ∀ c, (l.foldl (tolMinStep dist) acc).1 = some c →
        (l.foldl (tolMinStep dist) acc).2 = dist c ∧ (c ∈ l ∨ acc.1 = some c) := by
  intro l
  induction l with
  | nil =>
      intro acc hacc c hc
      simp only [List.foldl_nil] at hc ⊢
      exact ⟨hacc c hc, Or.inr hc⟩
  | cons c' cs ih =>
      intro acc hacc c hc
      rw [List.foldl_cons] at hc ⊢
      have hacc' : ∀ c0, (tolMinStep dist acc c').1 = some c0 →
          (tolMinStep dist acc c').2 = dist c0 := by
        intro c0 h0
        unfold tolMinStep at h0 ⊢
        by_cases h : dist c' + 1/1000000000 < acc.2
        · rw [if_pos h] at h0 ⊢
          simp only [Option.some.injEq] at h0
          subst h0
          rfl
        · rw [if_neg h] at h0 ⊢
          exact hacc c0 h0
      obtain ⟨h2, hmem⟩ := ih (tolMinStep dist acc c') hacc' c hc
      refine ⟨h2, ?_⟩
      rcases hmem with hmem | hmem
      · exact Or.inl (List.mem_cons_of_mem c' hmem)
      · unfold tolMinStep at hmem
        split at hmem
        · simp only [Option.some.injEq] at hmem
          exact Or.inl (hmem ▸ List.mem_cons_self c' cs)
        · exact Or.inr hmem

theorem tolMinFold_some_lt_base {α : Type} (dist : List α → ℚ) (base : ℚ) :
    ∀ (l : List (List α)) (acc : Option (List α) × ℚ),
      acc.2 ≤ base →
      (∀ c0, acc.1 = some c0 → dist c0 + 1/1000000000 < base) →
      ∀ c, (l.foldl (tolMinStep dist) acc).1 = some c →
        dist c + 1/1000000000 < base := by
  intro l
  induction l with
  | nil =>
      intro acc _ hacc c hc
      simp only [List.foldl_nil] at hc
      exact hacc c hc
  | cons c' cs ih =>
      intro acc hle hacc c hc
      rw [List.foldl_cons] at hc
      refine ih (tolMinStep dist acc c') ?_ ?_ c hc
      · refine le_trans (tolMinStep_snd_le dist acc c') hle
      · intro c0 h0
        unfold tolMinStep at h0
        split at h0
        · next h =>
            simp only [Option.some.injEq] at h0
            subst h0
            linarith
        · exact hacc c0 h0

theorem tolMinFold_none_inv {α : Type} (dist : List α → ℚ) :
    ∀ (l : List (List α)) (acc : Option (List α) × ℚ),
      (l.foldl (tolMinStep dist) acc).1 = none →
      (l.foldl (tolMinStep dist) acc).2 = acc.2 ∧ acc.1 = none ∧
        ∀ x ∈ l, ¬(dist x + 1/1000000000 < acc.2) := by
  intro l
  induction l with
  | nil =>
      intro acc h
      simp only [List.foldl_nil] at h ⊢
      exact ⟨by simp, h, by intro x hx; simp at hx⟩
  | cons c' cs ih =>
      intro acc hnone
      rw [List.foldl_cons] at hnone ⊢
      obtain ⟨h2, h1, hall⟩ := ih (tolMinStep dist acc c') hnone
      have hstep : tolMinStep dist acc c' = acc ∧ ¬(dist c' + 1/1000000000 < acc.2) := by
        unfold tolMinStep at h1 ⊢
        split at h1
        · simp at h1
        · next h => exact ⟨if_neg h, h⟩
      refine ⟨by rw [hstep.1] at h2 ⊢; exact h2, by rw [hstep.1] at h1; exact h1, ?_⟩
      intro x hx
      rcases List.mem_cons.mp hx with rfl | hx
      · exact hstep.2
      · have := hall x hx
        rwa [hstep.1] at this

/-- Counterexample for C7: for the sequence `[0..6]` and triple
`(i, j, k) = (1, 3, 5)` the reconnection "swap B and C" (`A ++ C ++ B ++ D`),
which the claim says is evaluated, is not among the candidates the code
builds (in-place `reverse` has mutated the segments by the time the later
literals are formed). -/
theorem c7_three_opt_counterexample :
    [0, 3, 4, 1, 2, 5, 6] ∈ threeOptClaimedCandidates ([0, 1, 2, 3, 4, 5, 6] : List ℕ) 1 3 5 ∧
    [0, 3, 4, 1, 2, 5, 6] ∉ threeOptCandidates ([0, 1, 2, 3, 4, 5, 6] : List ℕ) 1 3 5 := by
  decide

/-- Claim C7 as amended: for every triple the code evaluates exactly these
six reconnections of `A | B | C | D` — identity, reverse B, double-reverse,
swap with both segments reversed, swap with B reversed, and reverse C (the
in-place `Array.reverse` mutation makes the built candidates differ from the
commented intent) — and the selection keeps the first-updated running best:
any returned candidate is one of the six, improves on the input sequence by
more than the 1e-9 tolerance, and is within the tolerance of every candidate;
when `none` is returned no candidate beats the input by the tolerance. -/
theorem c7_three_opt_mutated_candidates {α : Type} :
    (∀ (seq : List α) (i j k : ℕ),
      threeOptCandidates seq i j k =
        [seq.take i ++ (seq.drop i).take (j - i) ++ (seq.drop j).take (k - j) ++ seq.drop k,
         seq.take i ++ ((seq.drop i).take (j - i)).reverse ++ (seq.drop j).take (k - j) ++
           seq.drop k,
         seq.take i ++ ((seq.drop i).take (j - i)).reverse ++
           ((seq.drop j).take (k - j)).reverse ++ seq.drop k,
         seq.take i ++ ((seq.drop j).take (k - j)).reverse ++
           ((seq.drop i).take (j - i)).reverse ++ seq.drop k,
         seq.take i ++ (seq.drop j).take (k - j) ++ ((seq.drop i).take (j - i)).reverse ++
           seq.drop k,
         seq.take i ++ (seq.drop i).take (j - i) ++ ((seq.drop j).take (k - j)).reverse ++
           seq.drop k]) ∧
    (∀ (dist : List α → ℚ) (seq : List α) (i j k : ℕ) (c : List α),
      threeOptPickAt dist seq i j k = some c →
        c ∈ threeOptCandidates seq i j k ∧
        dist c + 1/1000000000 < dist seq ∧
        ∀ c' ∈ threeOptCandidates seq i j k, dist c ≤ dist c' + 1/1000000000) ∧
    (∀ (dist : List α → ℚ) (seq : List α) (i j k : ℕ),
      threeOptPickAt dist seq i j k = none →
        ∀ c' ∈ threeOptCandidates seq i j k, ¬(dist c' + 1/1000000000 < dist seq)) := by
  refine ⟨?_, ?_, ?_⟩
  · intro seq i j k
    simp [threeOptCandidates, List.reverse_reverse]
  · intro dist seq i j k c hc
    unfold threeOptPickAt at hc
    have hinv := tolMinFold_some_inv dist (threeOptCandidates seq i j k)
      (none, dist seq) (by intro c0 h0; simp at h0) c hc
    have hlt := tolMinFold_some_lt_base dist (dist seq) (threeOptCandidates seq i j k)
      (none, dist seq) (le_refl _) (by intro c0 h0; simp at h0) c hc
    refine ⟨?_, hlt, ?_⟩
    · rcases hinv.2 with h | h
      · exact h
      · simp at h
    · intro c' hc'
      have := tolMinFold_le_elem dist (threeOptCandidates seq i j k) (none, dist seq) c' hc'
      rw [hinv.1] at this
      exact this
  · intro dist seq i j k hn c' hc'
    unfold threeOptPickAt at hn
    have := (tolMinFold_none_inv dist (threeOptCandidates seq i j k) (none, dist seq) hn).2.2
    simpa using this c' hc'

/-- Witness for C7 (amended): at the concrete sequence `[0..6]`, triple
`(1, 3, 5)` and the oracle `dNat`, the pass accepts the swap-with-B-reversed
candidate, and the amended theorem confirms it is evaluated and improving. -/
theorem c7_three_opt_mutated_candidates_witness :
    threeOptPickAt dNat [0, 1, 2, 3, 4, 5, 6] 1 3 5 = some [0, 3, 4, 2, 1, 5, 6] ∧
    [0, 3, 4, 2, 1, 5, 6] ∈ threeOptCandidates ([0, 1, 2, 3, 4, 5, 6] : List ℕ) 1 3 5 ∧
    dNat [0, 3, 4, 2, 1, 5, 6] + 1/1000000000 < dNat [0, 1, 2, 3, 4, 5, 6] := by
  have hc : threeOptCandidates ([0, 1, 2, 3, 4, 5, 6] : List ℕ) 1 3 5 =
      [[0, 1, 2, 3, 4, 5, 6], [0, 2, 1, 3, 4, 5, 6], [0, 2, 1, 4, 3, 5, 6],
       [0, 4, 3, 2, 1, 5, 6], [0, 3, 4, 2, 1, 5, 6], [0, 1, 2, 4, 3, 5, 6]] := by decide
  have hpick : threeOptPickAt dNat [0, 1, 2, 3, 4, 5, 6] 1 3 5 =
      some [0, 3, 4, 2, 1, 5, 6] := by
    unfold threeOptPickAt
    rw [hc]
    norm_num [tolMinStep, dNat, List.foldl_cons]
  have h := c7_three_opt_mutated_candidates.2.1 dNat [0, 1, 2, 3, 4, 5, 6] 1 3 5
    [0, 3, 4, 2, 1, 5, 6] hpick
  exact ⟨hpick, h.1, h.2.1⟩

/-- Counterexample for C8: a request whose location `x` has latitude
`Infinity` passes validation (`none`: the solve proceeds and the algorithms
run); the claim says non-finite coordinates are rejected as BadInput before
any algorithm runs. -/
theorem c8_nonfinite_coordinates_not_rejected :
    createOptimizationValidate reqInf = none ∧
    reqInf.locations.any (fun loc => !jsIsFiniteVal loc.latitude) = true := by
  decide

/-- Claim C8 as amended: with a valid name, a request is accepted (no BadInput
before the algorithms) exactly when the vehicle and location id lists are
nonempty and within the 100-location / 20-vehicle limits, the fetched
vehicle and location documents are nonempty, and some location is marked as
depot.  Oversize or empty requests and a missing depot are rejected before
any algorithm runs with no truncation; coordinates — finite or not — are
never checked. -/
theorem c8_validation_amended (req : OptRequest) (hname : jsTrim req.name ≠ "") :
    createOptimizationValidate req = none ↔
      (req.vehicleIds ≠ [] ∧ req.locationIds ≠ [] ∧ req.locationIds.length ≤ 100 ∧
        req.vehicleIds.length ≤ 20 ∧ req.vehicles ≠ [] ∧ req.locations ≠ [] ∧
        ∃ loc ∈ req.locations, loc.isDepot = true) := by
  unfold createOptimizationValidate
  rw [if_neg hname]
  constructor
  · intro h
    split_ifs at h with h1 h2 h3 h4 h5 h6 h7
    refine ⟨by simpa [List.isEmpty_iff] using h1, by simpa [List.isEmpty_iff] using h2,
      by omega, by omega, by simpa [List.isEmpty_iff] using h5,
      by simpa [List.isEmpty_iff] using h6, ?_⟩
    have := h7
    simp only [Bool.not_eq_true', Bool.not_eq_false] at this
    simpa [List.any_eq_true] using this
  · rintro ⟨h1, h2, h3, h4, h5, h6, loc, hloc, hdep⟩
    rw [if_neg (by simpa [List.isEmpty_iff] using h1),
      if_neg (by simpa [List.isEmpty_iff] using h2),
      if_neg (by omega), if_neg (by omega),
      if_neg (by simpa [List.isEmpty_iff] using h5),
      if_neg (by simpa [List.isEmpty_iff] using h6),
      if_neg (by simp [List.any_eq_true]; exact ⟨loc, hloc, hdep⟩)]

/-- Witness for C8 (amended) on a concrete well-formed request. -/
theorem c8_validation_amended_witness :
    createOptimizationValidate reqOk = none :=
  (c8_validation_amended reqOk (by decide)).mpr (by decide)

theorem cov_lexStepAmended (b c : AlgoResult) :
    (lexStepAmended b c).coveragePercentage =
      max b.coveragePercentage c.coveragePercentage := by
  unfold lexStepAmended
  split
  · next h =>
      rcases h with h | h
      · exact (max_eq_right (le_of_lt h)).symm
      · exact (max_eq_right (le_of_eq h.1.symm)).symm
  · next h =>
      push_neg at h
      exact (max_eq_left h.1).symm

theorem le_maxCovFold : ∀ (l : List AlgoResult) (x : ℚ), x ≤ maxCovFold x l := by
  intro l
  induction l with
  | nil => intro x; exact le_refl x
  | cons a as ih =>
      intro x
      calc x ≤ max x (jsOr0 a.coveragePercentage) := le_max_left _ _
        _ ≤ maxCovFold (max x (jsOr0 a.coveragePercentage)) as := ih _
        _ = maxCovFold x (a :: as) := rfl

theorem codePick_cons (m : AlgoResult) (ms : List AlgoResult) :
    codePick (m :: ms) = some (ms.foldl minDistStep m) := by
  cases ms with
  | nil => rfl
  | cons a as => rfl

theorem lexStepAmended_of_cov_eq (v c : AlgoResult)
    (h : v.coveragePercentage = c.coveragePercentage) :
    lexStepAmended v c = minDistStep v c := by
  unfold lexStepAmended minDistStep
  refine if_congr ?_ rfl rfl
  constructor
  · rintro (h' | h')
    · exact absurd h' (by rw [h]; exact lt_irrefl _)
    · exact h'.2
  · intro h'
    exact Or.inr ⟨h.symm, h'⟩

theorem codeSelectCore_cons (v c : AlgoResult) (cs : List AlgoResult) :
    codeSelectCore v (c :: cs) = codeSelectCore (lexStepAmended v c) cs := by
  unfold codeSelectCore
  have hM : maxCovFold (jsOr0 v.coveragePercentage) (c :: cs) =
      maxCovFold (jsOr0 (lexStepAmended v c).coveragePercentage) cs := by
    show maxCovFold
        (max (jsOr0 v.coveragePercentage) (jsOr0 c.coveragePercentage)) cs = _
    rw [jsOr0_eq, jsOr0_eq, jsOr0_eq, cov_lexStepAmended]
  rw [hM]
  set M := maxCovFold (jsOr0 (lexStepAmended v c).coveragePercentage) cs with hMdef
  have hinit : max v.coveragePercentage c.coveragePercentage ≤ M := by
    rw [hMdef, jsOr0_eq, cov_lexStepAmended]
    exact le_maxCovFold _ _
  have hvM : v.coveragePercentage ≤ M := le_trans (le_max_left _ _) hinit
  have hcM : c.coveragePercentage ≤ M := le_trans (le_max_right _ _) hinit
  simp only [List.filter_cons, jsOr0_eq]
  rcases lt_trichotomy v.coveragePercentage c.coveragePercentage with hlt | heq | hgt
  · have hlex : lexStepAmended v c = c := by unfold lexStepAmended; exact if_pos (Or.inl hlt)
    have hvne : ¬((v.coveragePercentage == M) = true) := by
      simp only [beq_iff_eq]
      exact ne_of_lt (lt_of_lt_of_le hlt hcM)
    rw [hlex, if_neg hvne]
  · have hlex : lexStepAmended v c = minDistStep v c := lexStepAmended_of_cov_eq v c heq
    have hlexcov : (lexStepAmended v c).coveragePercentage = v.coveragePercentage := by
      rw [cov_lexStepAmended, heq, max_self]
    by_cases hv : v.coveragePercentage = M
    · have hv' : (v.coveragePercentage == M) = true := by
        rw [beq_iff_eq]; exact hv
      have hc' : (c.coveragePercentage == M) = true := by
        rw [beq_iff_eq]; exact heq ▸ hv
      have hl' : ((lexStepAmended v c).coveragePercentage == M) = true := by
        rw [beq_iff_eq, hlexcov]; exact hv
      rw [if_pos hv', if_pos hc', if_pos hl', codePick_cons, codePick_cons,
        List.foldl_cons, hlex]
    · have hv' : ¬((v.coveragePercentage == M) = true) := by
        rw [beq_iff_eq]; exact hv
      have hc' : ¬((c.coveragePercentage == M) = true) := by
        rw [beq_iff_eq]; exact fun h => hv (heq ▸ h)
      have hl' : ¬(((lexStepAmended v c).coveragePercentage == M) = true) := by
        rw [beq_iff_eq, hlexcov]; exact hv
      rw [if_neg hv', if_neg hc', if_neg hl']
  · have hlex : lexStepAmended v c = v := by
      unfold lexStepAmended
      refine if_neg ?_
      rintro (h' | h')
      · exact absurd h' (not_lt.mpr (le_of_lt hgt))
      · exact absurd h'.1 (ne_of_lt hgt)
    have hcne : ¬((c.coveragePercentage == M) = true) := by
      simp only [beq_iff_eq]
      exact ne_of_lt (lt_of_lt_of_le hgt hvM)
    rw [hlex, if_neg hcne]

theorem codeSelectCore_eq_foldl :
    ∀ (vs : List AlgoResult) (v : AlgoResult),
      codeSelectCore v vs = some (vs.foldl lexStepAmended v) := by
  intro vs
  induction vs with
  | nil =>
      intro v
      unfold codeSelectCore maxCovFold
      simp only [List.foldl_nil, List.filter_cons, List.filter_nil, beq_self_eq_true, if_pos]
      rfl
  | cons c cs ih =>
      intro v
      rw [codeSelectCore_cons, ih, List.foldl_cons]

/-- Counterexample for C1: two error-free results with equal coverage and
distances 0 and 5; the claimed rule selects the 0-distance result, but the
code coerces the falsy 0 to `Infinity` and selects the 5-distance result. -/
theorem c1_zero_distance_counterexample :
    claimWinner [resA, resB] = some resA ∧
    selectBestResult [resA, resB] = some resB ∧ resA ≠ resB := by
  decide

theorem set_erase_mem (routes : List Route) (hi lo : ℕ) (merged r : Route)
    (hr : r ∈ (routes.eraseIdx hi).set lo merged) : r ∈ routes ∨ r = merged := by
  rcases List.mem_or_eq_of_mem_set hr with h | h
  · exact Or.inl (List.mem_of_mem_eraseIdx h)
  · exact Or.inr h

theorem mergeStep_preserves (recompute : Route → Route)
    (hrec : ∀ rt, (recompute rt).totalCapacity = rt.totalCapacity)
    (maxCap : ℚ) (routes : List Route) (s : Saving)
    (hall : ∀ r ∈ routes, r.stops.length = 3 ∨ r.totalCapacity ≤ maxCap) :
    ∀ r ∈ mergeStep recompute maxCap routes s,
      r.stops.length = 3 ∨ r.totalCapacity ≤ maxCap := by
  intro r hr
  unfold mergeStep at hr
  split at hr
  case _ posI posJ =>
    split at hr
    · exact hall r hr
    · split at hr
      case _ r1 r2 =>
        simp only [Bool.and_eq_true] at hr
        split at hr
        · exact hall r hr
        · split at hr
          · exact hall r hr
          · next hgate =>
              rcases set_erase_mem _ _ _ _ _ hr with h | h
              · exact hall r h
              · subst h
                right
                rw [hrec]
                exact not_lt.mp hgate
      case _ => exact hall r hr
  case _ => exact hall r hr

theorem foldl_mergeStep_preserves (recompute : Route → Route)
    (hrec : ∀ rt, (recompute rt).totalCapacity = rt.totalCapacity) (maxCap : ℚ) :
    ∀ (savings : List Saving) (routes : List Route),
      (∀ r ∈ routes, r.stops.length = 3 ∨ r.totalCapacity ≤ maxCap) →
      ∀ r ∈ savings.foldl (mergeStep recompute maxCap) routes,
        r.stops.length = 3 ∨ r.totalCapacity ≤ maxCap := by
  intro savings
  induction savings with
  | nil =>
      intro routes hall r hr
      rw [List.foldl_nil] at hr
      exact hall r hr
  | cons s ss ih =>
      intro routes hall r hr
      rw [List.foldl_cons] at hr
      exact ih _ (mergeStep_preserves recompute hrec maxCap routes s hall) r hr

theorem cwInitialRoutes_stops_length (depot : LocationT)
    (nonDepot : List LocationT) (speedKmh : ℚ) (dm : String → String → Option ℚ) :
    ∀ r ∈ cwInitialRoutes depot nonDepot speedKmh dm, r.stops.length = 3 := by
  intro r hr
  obtain ⟨loc, _, rfl⟩ := List.mem_map.mp hr
  rfl

/-- Claim C6: in both the basic and the enhanced Clarke-Wright savings
phases, a merge is performed only when the merged route's combined demand is
at most the fleet's maximum vehicle capacity — every non-singleton route of
the phase output respects that bound, so two demand-8 customers are never
merged onto a capacity-10 fleet (a singleton route, `stops.length = 3`, may
exceed it only because it was never merged). -/
theorem c6_savings_capacity_gate (o : TrigOracle) (vehicles : List VehicleT)
    (locations : List LocationT) (depot : LocationT) :
    (∀ r ∈ clarkeWrightSavingsPhase o vehicles locations depot,
      3 < r.stops.length → r.totalCapacity ≤ maxCapacityOf vehicles) ∧
    (∀ r ∈ enhancedClarkeWrightSavingsPhase o vehicles locations depot,
      3 < r.stops.length → r.totalCapacity ≤ maxCapacityOf vehicles) := by
  constructor
  · intro r hr hlen
    simp only [clarkeWrightSavingsPhase] at hr
    have hres := foldl_mergeStep_preserves
      (recomputeRouteMetrics o (buildDistances o locations) 40) (fun rt => rfl)
      (maxCapacityOf vehicles) _ _
      (fun r0 hr0 => Or.inl (cwInitialRoutes_stops_length _ _ _ _ r0 hr0)) r hr
    rcases hres with h | h
    · omega
    · exact h
  · intro r hr hlen
    simp only [enhancedClarkeWrightSavingsPhase] at hr
    have hres := foldl_mergeStep_preserves
      (recomputeRouteMetrics o (buildDistances o locations) 40) (fun rt => rfl)
      (maxCapacityOf vehicles) _ _
      (fun r0 hr0 => Or.inl (cwInitialRoutes_stops_length _ _ _ _ r0 hr0)) r hr
    rcases hres with h | h
    · omega
    · exact h

theorem jsRound_zero : jsRound 0 = 0 := by
  unfold jsRound
  rw [zero_add, Int.floor_eq_zero_iff]
  constructor <;> norm_num

theorem calculateDistanceQ_oWitness (a b c d : ℚ) :
    calculateDistanceQ oWitness a b c d = 0 := by
  unfold calculateDistanceQ haversineSpec oWitness
  have hfl : ⌊(6371 * (2 * 0) * 1000 + 1/2 : ℚ)⌋ = 0 := by
    rw [show (6371 * (2 * 0) * 1000 + 1/2 : ℚ) = 1/2 by norm_num]
    rw [Int.floor_eq_zero_iff]
    constructor <;> norm_num
  simp only [jsRound]
  rw [hfl]
  norm_num

theorem cw_dm_eval (id1 id2 : String) :
    buildDistances oWitness [locD, locA, locB] id1 id2 = none ∨
    buildDistances oWitness [locD, locA, locB] id1 id2 = some 0 := by
  unfold buildDistances
  cases h1 : List.find? (fun l => l._id == id1) [locD, locA, locB] with
  | none => left; rfl
  | some l1 =>
      cases h2 : List.find? (fun l => l._id == id2) [locD, locA, locB] with
      | none => left; rfl
      | some l2 => right; simp [calculateDistanceQ_oWitness]

theorem cw_dm_getD (id1 id2 : String) :
    (buildDistances oWitness [locD, locA, locB] id1 id2).getD 0 = 0 := by
  rcases cw_dm_eval id1 id2 with h | h <;> rw [h] <;> rfl

theorem cw_init_eval :
    cwInitialRoutes locD [locA, locB] 40 (buildDistances oWitness [locD, locA, locB]) =
      [r0A, r0B] := by
  unfold cwInitialRoutes
  simp only [List.map_cons, List.map_nil, cw_dm_getD, makeDepotStop, makeLocationStop]
  norm_num [r0A, r0B, locD, locA, locB, jsOr0, jsRound_zero]

theorem cw_recompute_eval :
    recomputeRouteMetrics oWitness (buildDistances oWitness [locD, locA, locB]) 40
      { vehicle := none, vehicleName := "Unassigned",
        stops := ([⟨"d", "Depot", 0, 0, 0, 0⟩, ⟨"a", "A", 0, 1, 3, 1⟩,
          ⟨"b", "B", 0, 2, 3, 2⟩, ⟨"d", "Depot", 0, 0, 0, 3⟩] : List Stop),
        distance := 0, duration := 0, totalCapacity := 6 } = demoMerged := by
  unfold recomputeRouteMetrics
  have hp : ∀ a b : Stop,
      pairDistGetD oWitness (buildDistances oWitness [locD, locA, locB]) a b = 0 := by
    intro a b
    unfold pairDistGetD
    rcases cw_dm_eval a.locationId b.locationId with h | h <;> rw [h]
    · exact calculateDistanceQ_oWitness _ _ _ _
    · rfl
  simp only [stopsDistance, hp]
  norm_num [demoMerged, jsRound_zero]

theorem cw_mergeStep_eval (sv : ℚ) :
    mergeStep (recomputeRouteMetrics oWitness (buildDistances oWitness [locD, locA, locB]) 40)
      (maxCapacityOf fleetB) [r0A, r0B] ⟨locA, locB, sv⟩ = [demoMerged] := by
  unfold mergeStep
  have hfi : findRouteIndexByLocation [r0A, r0B] locA._id = some (0, 1) := by decide
  have hfj : findRouteIndexByLocation [r0A, r0B] locB._id = some (1, 1) := by decide
  rw [hfi, hfj]
  have hgate : ¬(maxCapacityOf fleetB < jsOr0 (3:ℚ) + jsOr0 3) := by
    norm_num [maxCapacityOf, fleetB, jsOr0]
  simp only [List.get?_cons_zero, List.get?_cons_succ, Bool.and_eq_true]
  norm_num [r0A, r0B]
  rw [if_neg hgate, show (jsOr0 (3:ℚ) + jsOr0 3) = 6 by norm_num [jsOr0]]
  simp only [List.enum, List.enumFrom, List.map_cons, List.map_nil]
  rw [cw_recompute_eval]

theorem c6_phase_eval :
    clarkeWrightSavingsPhase oWitness fleetB [locD, locA, locB] locD = [demoMerged] := by
  simp only [clarkeWrightSavingsPhase]
  have hfilter : List.filter (fun l => !(l._id == locD._id)) [locD, locA, locB] =
      [locA, locB] := by decide
  rw [hfilter, cw_init_eval]
  have hpairs : allPairs [locA, locB] = [(locA, locB)] := by decide
  rw [hpairs]
  simp only [List.map_cons, List.map_nil]
  simp only [List.insertionSort, List.orderedInsert]
  rw [List.foldl_cons, List.foldl_nil]
  exact cw_mergeStep_eval _

/-- Witness for C6: on the concrete two-customer instance the phase merges
the two demand-3 routes (combined 6 ≤ capacity 10) into one four-stop route,
and the theorem confirms the merged route respects the gate. -/
theorem c6_savings_capacity_gate_witness :
    demoMerged ∈ clarkeWrightSavingsPhase oWitness fleetB [locD, locA, locB] locD ∧
    3 < demoMerged.stops.length ∧
    demoMerged.totalCapacity ≤ maxCapacityOf fleetB := by
  have hmem : demoMerged ∈ clarkeWrightSavingsPhase oWitness fleetB [locD, locA, locB] locD := by
    rw [c6_phase_eval]
    simp
  exact ⟨hmem, by decide,
    (c6_savings_capacity_gate oWitness fleetB [locD, locA, locB] locD).1 demoMerged hmem
      (by decide)⟩

/-- Claim C1 as amended: in compare mode the driver selects, among the
error-free results, the one with maximum coverage percentage, tie-broken by
minimum total distance where a totalDistance of 0 is treated as infinitely
large (the JS `|| Infinity` coercion); when coverage and key are tied the
first in insertion order wins, and if no error-free result exists the first
(failed) result is selected.  Stated as: the code's selection equals the
amended single-pass lexicographic rule on every result list. -/
theorem c1_winner_selection_amended (l : List AlgoResult) :
    selectBestResult l = claimWinnerAmended l := by
  unfold selectBestResult claimWinnerAmended
  cases l.filter (fun r => !r.error) with
  | nil => rfl
  | cons v vs => exact codeSelectCore_eq_foldl vs v

end RouteOpt
